import Mathlib

/-!
Verification of the `nuclei` module of the bbot repository
(`src/bbot/modules/deadly/nuclei.py`).

This file gives a shallow embedding of the module in Lean 4 and proves
properties of it.  The embedding follows the Python source line by line:

* a nuclei template file is a `YamlFile`: either its content fails to parse
  (constructor `bad`), or it parses into a `TemplateBody` holding the
  `requests` list (default `[]`) and the optional `info` block;
* a request entry is a `RequestSpec`; fields that the source only tests for
  Python truthiness (`headers`, `max-redirects`, `redirects`, `cookie-reuse`)
  are embedded as `Bool` (the truthiness of the fetched value), while `path`
  and `method` are embedded as `Option` because the source compares or
  iterates their exact values (`r.get("path")` may be `None`, which the
  source then iterates over, and `r.get("method")` is compared to `"GET"`);
* Python exceptions are embedded as `Except String`: a computation that the
  source aborts with an uncaught exception returns `.error`;
* Python dictionaries (`path_frequency`, `severity_dict`) are embedded as
  insertion-ordered association lists; `bump`/`bumpSev` perform the
  update `if key in d: d[key] += 1 else: d[key] = 1` of the source, keeping
  the key order of first insertion exactly like a Python `dict`;
* `sorted(items, key=lambda item: item[1], reverse=True)` is a stable sort
  by descending count.  A stable sort with respect to a total preorder has a
  unique result, so it is embedded as `List.insertionSort` with the relation
  `countDescOrder a b := b.2 ≤ a.2`, which is proved sorted and stable below.
-/

namespace Nuclei

/-- One entry of the `requests` list of a template.  `raw` is the truthiness of
`r.get("raw")`; a truthy `raw` makes `get_yaml_request_attr` skip the entry.
`headers`, `maxRedirects`, `redirects`, `cookieReuse` are the truthiness of
the corresponding fetched attributes. -/
structure RequestSpec where
  raw : Bool
  path : Option (List String)
  method : Option String
  headers : Bool
  maxRedirects : Bool
  redirects : Bool
  cookieReuse : Bool
deriving DecidableEq

/-- The `info` block of a parsed template; `severity` is `info.get("severity")`,
which may be absent. -/
structure InfoBlock where
  severity : Option String
deriving DecidableEq

/-- A parsed template: `p.get("requests", [])` and `p.get("info", [])`.
`info = none` models a template without an `info` mapping (the default
`[]` used by the source has no `.get`, so accessing an attribute of it
raises). -/
structure TemplateBody where
  requests : List RequestSpec
  info : Option InfoBlock
deriving DecidableEq

/-- One file of `yaml_list`: its name (`str(yf)`) together with the outcome
of `parse_yaml` on its content. -/
inductive YamlFile where
  | bad (name : String)
  | ok (name : String) (body : TemplateBody)
deriving DecidableEq

def fileName : YamlFile → String
  | .bad n => n
  | .ok n _ => n

/-- The exception escaping `parse_yaml` on a file whose YAML fails to parse:
the `except yaml.YAMLError` handler calls `self.debug`, but `NucleiBudget`
defines no `debug` method, so an `AttributeError` is raised (and even with a
`debug` method, `parse_yaml` would return `None` and the subsequent
`p.get("requests", [])` would raise `AttributeError` on `None`). -/
def parseFailure : String :=
  "AttributeError: NucleiBudget object has no attribute debug"

/-- Parsing a file, as observed by `get_yaml_request_attr` /
`get_yaml_info_attr` (the generator body runs `parse_yaml` first). -/
def parseOutcome : YamlFile → Except String TemplateBody
  | .bad _ => .error parseFailure
  | .ok _ b => .ok b

/-- The entries `get_yaml_request_attr` iterates over: all requests whose
`raw` attribute is falsy. -/
def nonRawSpecs (b : TemplateBody) : List RequestSpec :=
  b.requests.filter (fun r => !r.raw)

/-- The exception raised by `for path in paths` / `set(paths)` when a
non-raw request has no `path` attribute (`r.get("path")` is `None`). -/
def noneIterError : String :=
  "TypeError: NoneType object is not iterable"

/-- Collect the path lists yielded by `get_yaml_request_attr(yf, "path")`,
failing like the source does when one of them is `None`. -/
def iterPaths : List (Option (List String)) → Except String (List (List String))
  | [] => .ok []
  | none :: _ => .error noneIterError
  | some ps :: rest =>
    match iterPaths rest with
    | .error e => .error e
    | .ok tl => .ok (ps :: tl)

/-- The frequency update the source performs on the `path_frequency` dict:
`if path in path_frequency.keys(): path_frequency[path] += 1
 else: path_frequency[path] = 1`.  Insertion order is preserved, new keys
go to the end, exactly like a Python `dict`. -/
def bump : List (String × Nat) → String → List (String × Nat)
  | [], p => [(p, 1)]
  | q :: qs, p => if q.1 = p then (q.1, q.2 + 1) :: qs else q :: bump qs p

/-- The contribution of one file to `path_frequency`:
`for paths in self.get_yaml_request_attr(yf, "path"): for path in paths: ...` -/
def fileBump (acc : List (String × Nat)) (f : YamlFile) :
    Except String (List (String × Nat)) :=
  match parseOutcome f with
  | .error e => .error e
  | .ok b =>
    match iterPaths ((nonRawSpecs b).map (fun r => r.path)) with
    | .error e => .error e
    | .ok pls => .ok (pls.foldl (fun a ps => ps.foldl bump a) acc)

/-- The `for yf in self.yaml_list` loop of `find_budget_paths`. -/
def pathFrequencyAux : List YamlFile → List (String × Nat) →
    Except String (List (String × Nat))
  | [], acc => .ok acc
  | f :: fs, acc =>
    match fileBump acc f with
    | .error e => .error e
    | .ok acc2 => pathFrequencyAux fs acc2

/-- The `path_frequency` dictionary built by `find_budget_paths`. -/
def pathFrequency (files : List YamlFile) : Except String (List (String × Nat)) :=
  pathFrequencyAux files []

/-- The sort order of `sorted(path_frequency.items(), key=lambda item:
item[1], reverse=True)`: descending count. -/
def countDescOrder (a b : String × Nat) : Prop := b.2 ≤ a.2

instance : DecidableRel countDescOrder := fun a b => Nat.decLe b.2 a.2

instance : IsTotal (String × Nat) countDescOrder :=
  ⟨fun a b => (Nat.le_total b.2 a.2).elim Or.inl Or.inr⟩

instance : IsTrans (String × Nat) countDescOrder :=
  ⟨fun _ _ _ h1 h2 => Nat.le_trans h2 h1⟩

/-- The `sorted` builtin of Python is a stable sort; with respect to the total preorder
`countDescOrder` the stable sorted rearrangement is unique, and
`List.insertionSort` computes it (sortedness and stability are proved
below). -/
def sortDesc (l : List (String × Nat)) : List (String × Nat) :=
  l.insertionSort countDescOrder

/-- `NucleiBudget.find_budget_paths`: index path frequencies over the
corpus, sort descending, and keep the first `budget` keys
(`list(dict(islice(sorted_dict.items(), budget)).keys())`). -/
def find_budget_paths (files : List YamlFile) (budget : Nat) :
    Except String (List String) :=
  match pathFrequency files with
  | .error e => .error e
  | .ok freq => .ok (((sortDesc freq).take budget).map Prod.fst)

/-- The feature part of the collapsibility checks of
`find_collapsable_templates`, applied to one non-raw request: no truthy
`headers`, method exactly `"GET"` (`if m != "GET": valid = False`, so an
absent method also disqualifies), no truthy `max-redirects`, `redirects`
or `cookie-reuse`. -/
def specFeatureOk (r : RequestSpec) : Bool :=
  !r.headers && r.method == some "GET" && !r.maxRedirects && !r.redirects &&
    !r.cookieReuse

/-- The cumulative value of the `valid` flag of the source after the five check
loops ran: each loop ranges over all non-raw requests of the template. -/
def templateValid (b : TemplateBody) : Bool :=
  (nonRawSpecs b).all specFeatureOk

/-- `set(paths).issubset(self.budget_paths)`. -/
def pathsSubset (ps : List String) (bp : List String) : Bool :=
  ps.all (fun p => decide (p ∈ bp))

/-- The tally update the source performs on `severity_dict`; keys are the raw
(possibly absent, hence `Option`) severity values. -/
def bumpSev : List (Option String × Nat) → Option String →
    List (Option String × Nat)
  | [], k => [(k, 1)]
  | q :: qs, k => if q.1 = k then (q.1, q.2 + 1) :: qs else q :: bumpSev qs k

/-- The exception raised by `get_yaml_info_attr` when the parsed template
has no `info` mapping: `p.get("info", [])` returns the default `[]`, and a
Python list has no `get` attribute. -/
def infoMissing : String :=
  "AttributeError: list object has no attribute get"

/-- State of the `find_collapsable_templates` loop: the
`collapsable_templates` list and the `severity_dict` tally. -/
abbrev CollapseState := List String × List (Option String × Nat)

/-- One iteration of `for paths in self.get_yaml_request_attr(yf, "path")`
inside `find_collapsable_templates`: `set(paths)` raises on `None`;
when the paths are a subset of the budget selection the five feature-check
loops run over all non-raw requests and, if the template is still valid,
its name is appended and its severity tallied (fetching the severity
raises when the template has no `info` block). -/
def collapseSpec (bp : List String) (name : String) (b : TemplateBody)
    (st : CollapseState) (r : RequestSpec) : Except String CollapseState :=
  match r.path with
  | none => .error noneIterError
  | some ps =>
    if pathsSubset ps bp then
      if templateValid b then
        match b.info with
        | none => .error infoMissing
        | some info => .ok (st.1 ++ [name], bumpSev st.2 info.severity)
      else .ok st
    else .ok st

/-- The inner loop of `find_collapsable_templates` over the non-raw
requests of one file. -/
def collapseSpecsAux (bp : List String) (name : String) (b : TemplateBody) :
    List RequestSpec → CollapseState → Except String CollapseState
  | [], st => .ok st
  | r :: rs, st =>
    match collapseSpec bp name b st r with
    | .error e => .error e
    | .ok st2 => collapseSpecsAux bp name b rs st2

/-- Processing of one file by `find_collapsable_templates` (a file that
fails to parse raises inside the first `next()` on the generator). -/
def collapseFile (bp : List String) (st : CollapseState) (f : YamlFile) :
    Except String CollapseState :=
  match parseOutcome f with
  | .error e => .error e
  | .ok b => collapseSpecsAux bp (fileName f) b (nonRawSpecs b) st

/-- The `for yf in self.yaml_list` loop of `find_collapsable_templates`. -/
def collapseFilesAux (bp : List String) :
    List YamlFile → CollapseState → Except String CollapseState
  | [], st => .ok st
  | f :: fs, st =>
    match collapseFile bp st f with
    | .error e => .error e
    | .ok st2 => collapseFilesAux bp fs st2

/-- `NucleiBudget.find_collapsable_templates`. -/
def find_collapsable_templates (files : List YamlFile) (bp : List String) :
    Except String CollapseState :=
  collapseFilesAux bp files ([], [])

/-- `NucleiBudget.__init__`: compute the budget paths, then the collapsable
templates and the severity statistics. -/
def nucleiBudgetRun (files : List YamlFile) (budget : Nat) :
    Except String (List String × CollapseState) :=
  match find_budget_paths files budget with
  | .error e => .error e
  | .ok bp =>
    match find_collapsable_templates files bp with
    | .error e => .error e
    | .ok cs => .ok (bp, cs)

/-- Whether one non-raw request triggers the collapsibility branch: its
declared paths (TypeError on an absent path list is handled by the caller;
here the absent case defaults to `[]`) are a subset of the budget
selection. -/
def qualifies (bp : List String) (r : RequestSpec) : Bool :=
  pathsSubset (r.path.getD []) bp

/-- Number of appends a prefix of the request list accounts for: one per
qualifying request, and none at all when the template fails the feature
checks. -/
def specContrib (bp : List String) (b : TemplateBody)
    (specs : List RequestSpec) : Nat :=
  if templateValid b then specs.countP (qualifies bp) else 0

/-- How many times `find_collapsable_templates` appends one parsed file:
once per qualifying non-raw request, provided the whole template passes
the feature checks. -/
def contribution (bp : List String) (b : TemplateBody) : Nat :=
  specContrib bp b (nonRawSpecs b)

/-- The severity value `next(self.get_yaml_info_attr(yf, "severity"))`
fetches, for a template whose `info` block is present. -/
def severityOf (b : TemplateBody) : Option String :=
  match b.info with
  | none => none
  | some i => i.severity

/-- The names one file contributes to `collapsable_templates`. -/
def perFileNames (bp : List String) : YamlFile → List String
  | .bad _ => []
  | .ok n b => List.replicate (contribution bp b) n

/-- The severity values one file tallies into `severity_dict`. -/
def perFileSevs (bp : List String) : YamlFile → List (Option String)
  | .bad _ => []
  | .ok _ b => List.replicate (contribution bp b) (severityOf b)

/-- Folding a list of tallied severities into a severity dictionary. -/
def sevFold (d : List (Option String × Nat)) (l : List (Option String)) :
    List (Option String × Nat) :=
  l.foldl bumpSev d

/-- Sum of the counters of a severity dictionary
(`sum(severity_stats.values())`). -/
def sumValues (d : List (Option String × Nat)) : Nat :=
  (d.map Prod.snd).sum

/-- The path strings one file feeds into the frequency index, in scan
order: every entry of every declared path list of every non-raw request
(an absent path list, which makes the source raise, defaults to `[]`
here; the characterization lemmas below only apply this to runs that did
not raise). -/
def specPathsOf : YamlFile → List String
  | .bad _ => []
  | .ok _ b => (nonRawSpecs b).flatMap (fun r => r.path.getD [])

/-- All path strings of the corpus in scan order. -/
def corpusPathList (files : List YamlFile) : List String :=
  files.flatMap specPathsOf

/-- Keep-first deduplication step: a key already seen is dropped, a new
key goes to the end. -/
def firstSeenStep (acc : List String) (x : String) : List String :=
  if x ∈ acc then acc else acc ++ [x]

def firstSeenAux (acc : List String) (l : List String) : List String :=
  l.foldl firstSeenStep acc

/-- The distinct elements of `l` in order of first occurrence; this is the
key order of a Python dict filled by iterating `l`. -/
def firstSeen (l : List String) : List String :=
  firstSeenAux [] l

/-- The distinct paths of the corpus, in first-encounter order. -/
def distinctPaths (files : List YamlFile) : List String :=
  firstSeen (corpusPathList files)

abbrev distinctPathCount (files : List YamlFile) : Nat :=
  (distinctPaths files).length

/-- Reading a counter from the frequency dictionary (0 when absent). -/
def countOf (d : List (String × Nat)) (p : String) : Nat :=
  match d.find? (fun q => q.1 == p) with
  | some q => q.2
  | none => 0

/-- A plain GET request with the given paths and no other feature set. -/
def simpleGet (paths : List String) : RequestSpec :=
  { raw := false, path := some paths, method := some "GET", headers := false,
    maxRedirects := false, redirects := false, cookieReuse := false }

/-- A raw request (`raw` truthy); its other attributes are never inspected
by the source. -/
def rawSpec : RequestSpec :=
  { raw := true, path := none, method := none, headers := false,
    maxRedirects := false, redirects := false, cookieReuse := false }

/-- A template mixing a raw request, a qualifying GET request on `/a` and a
GET request on `/b` that is outside a budget of one path. -/
def mixedBody : TemplateBody :=
  { requests := [rawSpec, simpleGet ["/a"], simpleGet ["/b"]],
    info := some { severity := some "high" } }

def mixedCorpus : List YamlFile := [.ok "t" mixedBody]

/-- A template with two GET requests on the same path `/a`. -/
def twinBody : TemplateBody :=
  { requests := [simpleGet ["/a"], simpleGet ["/a"]],
    info := some { severity := some "low" } }

def twinCorpus : List YamlFile := [.ok "t" twinBody]

/-- A non-raw request with no `path` attribute at all. -/
def pathlessSpec : RequestSpec :=
  { raw := false, path := none, method := some "GET", headers := false,
    maxRedirects := false, redirects := false, cookieReuse := false }

def pathlessCorpus : List YamlFile :=
  [.ok "t" { requests := [pathlessSpec], info := some { severity := some "info" } }]

/-- A template whose single non-raw request declares an empty path list. -/
def emptyPathBody : TemplateBody :=
  { requests := [simpleGet []], info := some { severity := some "info" } }

def emptyPathCorpus : List YamlFile := [.ok "e" emptyPathBody]

def goodBody : TemplateBody :=
  { requests := [simpleGet ["/a"]], info := some { severity := some "critical" } }

/-- Python dict subscription `severity_stats[key]`: the counter when the
key is present, a KeyError otherwise. -/
def dictLookup (d : List (Option String × Nat)) (k : Option String) :
    Except String Nat :=
  match d.find? (fun q => q.1 == k) with
  | some q => .ok q.2
  | none => .error "KeyError"

/-- The six severity levels the budget-mode `setup` subscripts
`severity_stats` with (source lines 107-112). -/
def sixSeverities : List String :=
  ["critical", "high", "medium", "low", "info", "unknown"]

/-- The budget-mode `setup` report: reads
`severity_stats["critical"]`, ..., `severity_stats["unknown"]` in order;
the first missing key raises a KeyError. -/
def setupSeverityReport (d : List (Option String × Nat)) :
    Except String (List Nat) :=
  match dictLookup d (some "critical") with
  | .error e => .error e
  | .ok n1 =>
    match dictLookup d (some "high") with
    | .error e => .error e
    | .ok n2 =>
      match dictLookup d (some "medium") with
      | .error e => .error e
      | .ok n3 =>
        match dictLookup d (some "low") with
        | .error e => .error e
        | .ok n4 =>
          match dictLookup d (some "info") with
          | .error e => .error e
          | .ok n5 =>
            match dictLookup d (some "unknown") with
            | .error e => .error e
            | .ok n6 => .ok [n1, n2, n3, n4, n5, n6]

/-- A two-file corpus in which `/b` occurs twice and `/a` once. -/
def freqCorpus : List YamlFile :=
  [.ok "x" { requests := [simpleGet ["/a", "/b"]], info := none },
   .ok "y" { requests := [simpleGet ["/b"]], info := none }]

/-- A collapsible single-request template of the given severity. -/
def sevBody (s : String) : TemplateBody :=
  { requests := [simpleGet ["/a"]], info := some { severity := some s } }

/-- A corpus with one collapsible template of each of the six severity
levels. -/
def sixCorpus : List YamlFile :=
  [.ok "c" (sevBody "critical"), .ok "h" (sevBody "high"),
   .ok "m" (sevBody "medium"), .ok "l" (sevBody "low"),
   .ok "i" (sevBody "info"), .ok "u" (sevBody "unknown")]

/-- The severity statistics produced on `sixCorpus`. -/
def sixStats : List (Option String × Nat) :=
  [(some "critical", 1), (some "high", 1), (some "medium", 1),
   (some "low", 1), (some "info", 1), (some "unknown", 1)]

/-- The `info` object of one nuclei JSON result line. -/
structure NucleiInfo where
  name : Option String
  severity : Option String
deriving DecidableEq

/-- One parsed nuclei JSON result line; every field the source extracts is
optional because `j.get` is used with a default. -/
structure NucleiJson where
  templateId : Option String
  matcherName : Option String
  info : Option NucleiInfo
  host : Option String
deriving DecidableEq

/-- `j.get("info", {}).get(attr, "")`. -/
def infoGet (j : NucleiJson) (f : NucleiInfo → Option String) : String :=
  match j.info with
  | none => ""
  | some i => (f i).getD ""

/-- `j.get("template-id", "")`. -/
def jsonTemplate (j : NucleiJson) : String :=
  j.templateId.getD ""

/-- The result name: the matcher-level name when truthy, otherwise the
template display name (`j.get("matcher-name", "")`, falling back to
`j.get("info", {}).get("name", "")`). -/
def jsonName (j : NucleiJson) : String :=
  let n := j.matcherName.getD ""
  if n = "" then infoGet j (fun i => i.name) else n

/-- The `str.upper()` method of Python, character-wise (the severity strings involved
are ASCII). -/
def strUpper (s : String) : String :=
  ⟨s.data.map Char.toUpper⟩

/-- `j.get("info", {}).get("severity", "").upper()`. -/
def jsonSeverity (j : NucleiJson) : String :=
  strUpper (infoGet j (fun i => i.severity))

/-- `j.get("host", "")`. -/
def jsonHost (j : NucleiJson) : String :=
  j.host.getD ""

/-- Processing of one output line of the external process inside
`execute_nuclei`: `none` models a line that `json.loads` rejects (the
source logs and continues); a parsed record yields
`(severity, template, host, name)` exactly when all four extracted
strings are non-empty, and is dropped otherwise. -/
def processLine : Option NucleiJson → Option (String × String × String × String)
  | none => none
  | some j =>
    if jsonTemplate j ≠ "" ∧ jsonName j ≠ "" ∧ jsonSeverity j ≠ "" ∧
        jsonHost j ≠ "" then
      some (jsonSeverity j, jsonTemplate j, jsonHost j, jsonName j)
    else none

/-- The stream of results yielded by `execute_nuclei` over the output
lines of the external process. -/
def executeNucleiResults (lines : List (Option NucleiJson)) :
    List (String × String × String × String) :=
  lines.filterMap processLine

/-- A fully populated result record. -/
def fullJson : NucleiJson :=
  { templateId := some "tech-detect", matcherName := some "apache",
    info := some { name := some "Tech Detection", severity := some "info" },
    host := some "https://a.example.com" }

/-- One scan target of the current batch: its raw data string (what
`str(e.data)` feeds to the scanner) and its host attribute (used for the
emitted finding). -/
structure InputEvent where
  data : String
  host : String
deriving DecidableEq

/-- Whether `needle` occurs as a contiguous substring of the other list. -/
def charsContain (needle : List Char) : List Char → Bool
  | [] => needle.isEmpty
  | c :: cs => needle.isPrefixOf (c :: cs) || charsContain needle cs

/-- Modelled from the spec: the membership test `host in event` used by
`correlate_event` is implemented by the event class of the host framework
(`bbot.modules.base`, not part of the sources); the spec states "find the
InputEvent whose data contains that host as a substring", so it is
embedded as substring containment of the host string in the data string
of the event. -/
def eventContains (e : InputEvent) (host : String) : Bool :=
  charsContain host.data e.data.data

/-- `nuclei.correlate_event`: return the first event of the batch that
contains the host; fall through (returning `None` after a logged warning)
when none does. -/
def correlate_event (events : List InputEvent) (host : String) :
    Option InputEvent :=
  events.find? (fun e => eventContains e host)

/-- The event dictionary emitted by `handle_batch` for one correlated
result, together with the source event it is attached to. -/
structure Finding where
  severity : String
  host : String
  url : String
  description : String
  source : InputEvent
deriving DecidableEq

/-- `nuclei.handle_batch` over the result tuples
`(severity, template, host, name)` yielded by `execute_nuclei`: each
result is correlated against the batch; an uncorrelated result is skipped
(the second component counts the correlation-failure warnings), a
correlated one produces a finding tied to the source event. -/
def handle_batch (events : List InputEvent)
    (results : List (String × String × String × String)) :
    List Finding × Nat :=
  results.foldl
    (fun acc res =>
      match correlate_event events res.2.2.1 with
      | none => (acc.1, acc.2 + 1)
      | some e =>
        (acc.1 ++
          [{ severity := res.1, host := e.host, url := res.2.2.1,
             description := "template: " ++ res.2.1 ++ ", name: " ++ res.2.2.2,
             source := e }], acc.2))
    ([], 0)

/-- The two-event batch of the correlation test in the spec. -/
def exampleBatch : List InputEvent :=
  [{ data := "https://a.example.com/path?q=1", host := "a.example.com" },
   { data := "https://b.example.com/", host := "b.example.com" }]

/-- The configuration surface read by `nuclei.setup` /
`nuclei.execute_nuclei`: module options plus the scan-level interactsh
settings.  String options are Python-falsy exactly when empty, so the
optional interactsh server and token are embedded as strings with `""`
for `None`. -/
structure NucleiConfig where
  mode : String
  tags : String
  templates : String
  severity : String
  etags : String
  interactshServer : String
  interactshToken : String
  interactshDisable : Bool
  ratelimit : Nat
  concurrency : Nat
deriving DecidableEq

/-- The module attributes `setup` stores on `self` and `execute_nuclei`
later reads. -/
structure ModuleState where
  templates : String
  tags : String
  etags : String
  severity : String
  iserver : String
  itoken : String
  budgetTemplatesFile : String
  config : NucleiConfig
deriving DecidableEq

def validModes : List String := ["technology", "severe", "manual", "budget"]

/-- The filter part of `nuclei.setup` (source lines 68-114): copy the
configured options onto the module, fail on an invalid mode, blank the
tags in technology mode, force severity `critical,high` and blank tags in
severe mode; manual and budget modes leave the configured filters
untouched (the budget branch only computes the collapsed template file,
supplied here as `budgetFile`). -/
def setupState (cfg : NucleiConfig) (budgetFile : String) :
    Option ModuleState :=
  if cfg.mode ∈ validModes then
    let st0 : ModuleState :=
      { templates := cfg.templates, tags := cfg.tags, etags := cfg.etags,
        severity := cfg.severity, iserver := cfg.interactshServer,
        itoken := cfg.interactshToken, budgetTemplatesFile := budgetFile,
        config := cfg }
    let st1 := if cfg.mode = "technology" then { st0 with tags := "" } else st0
    let st2 :=
      if cfg.mode = "severe" then { st1 with severity := "critical,high", tags := "" }
      else st1
    some st2
  else none

/-- The `if option: command.append(f"-{cli_option}"); command.append(option)`
pattern of `execute_nuclei`. -/
def optArgs (flag val : String) : List String :=
  if val = "" then [] else ["-" ++ flag, val]

/-- The argument list `nuclei.execute_nuclei` assembles before launching
the external process (the update directory is abbreviated to its basename
here). -/
def execute_nuclei_command (st : ModuleState) : List String :=
  ["nuclei", "-silent", "-json", "-update-directory", "nuclei-templates",
   "-rate-limit", toString st.config.ratelimit,
   "-concurrency", toString st.config.concurrency, "-duc"]
  ++ optArgs "severity" st.severity
  ++ optArgs "templates" st.templates
  ++ optArgs "iserver" st.iserver
  ++ optArgs "itoken" st.itoken
  ++ optArgs "etags" st.etags
  ++ (if st.tags = "" then [] else ["-tags", st.tags])
  ++ (if st.config.interactshDisable then ["-no-interactsh"] else [])
  ++ (if st.config.mode = "technology" then ["-as"] else [])
  ++ (if st.config.mode = "budget" then ["-t", st.budgetTemplatesFile] else [])

/-- A budget-mode configuration with a tag and a severity filter set. -/
def budgetCfg : NucleiConfig :=
  { mode := "budget", tags := "foo", templates := "", severity := "low",
    etags := "intrusive", interactshServer := "", interactshToken := "",
    interactshDisable := false, ratelimit := 150, concurrency := 25 }

/-- The module state `setup` produces for `budgetCfg`. -/
def budgetSt : ModuleState :=
  { templates := "", tags := "foo", etags := "intrusive", severity := "low",
    iserver := "", itoken := "", budgetTemplatesFile := "bfile",
    config := budgetCfg }

theorem collapseSpecsAux_ok (bp : List String) (name : String)
    (b : TemplateBody) :
    ∀ (specs : List RequestSpec) (st st2 : CollapseState),
      collapseSpecsAux bp name b specs st = .ok st2 →
      st2.1 = st.1 ++ List.replicate (specContrib bp b specs) name ∧
      st2.2 = sevFold st.2 (List.replicate (specContrib bp b specs) (severityOf b)) := by
  intro specs
  induction specs with
  | nil =>
    intro st st2 h
    cases h
    simp [specContrib, sevFold]
  | cons r rs ih =>
    intro st st2 h
    unfold collapseSpecsAux at h
    cases hc : collapseSpec bp name b st r with
    | error e => rw [hc] at h; cases h
    | ok st1 =>
      rw [hc] at h
      obtain ⟨h1, h2⟩ := ih st1 st2 h
      unfold collapseSpec at hc
      cases hp : r.path with
      | none => rw [hp] at hc; cases hc
      | some ps =>
        rw [hp] at hc
        dsimp only at hc
        by_cases hsub : pathsSubset ps bp
        · rw [if_pos hsub] at hc
          by_cases hval : templateValid b
          · rw [if_pos hval] at hc
            cases hinfo : b.info with
            | none => rw [hinfo] at hc; cases hc
            | some info =>
              rw [hinfo] at hc
              cases hc
              have hq : qualifies bp r = true := by simp [qualifies, hp, hsub]
              have hcount : specContrib bp b (r :: rs) = specContrib bp b rs + 1 := by
                simp [specContrib, hval, List.countP_cons, hq]
              have hsev : severityOf b = info.severity := by simp [severityOf, hinfo]
              constructor
              · rw [h1, hcount, List.replicate_succ]
                simp
              · rw [h2, hcount, hsev, List.replicate_succ]
                rfl
          · rw [if_neg hval] at hc
            cases hc
            have hcount : specContrib bp b (r :: rs) = specContrib bp b rs := by
              simp [specContrib, hval]
            exact ⟨by rw [h1, hcount], by rw [h2, hcount]⟩
        · rw [if_neg hsub] at hc
          cases hc
          have hq : qualifies bp r = false := by simp [qualifies, hp, hsub]
          have hcount : specContrib bp b (r :: rs) = specContrib bp b rs := by
            by_cases hval : templateValid b <;>
              simp [specContrib, hval, List.countP_cons, hq]
          exact ⟨by rw [h1, hcount], by rw [h2, hcount]⟩

theorem collapseFilesAux_ok (bp : List String) :
    ∀ (files : List YamlFile) (st st2 : CollapseState),
      collapseFilesAux bp files st = .ok st2 →
      st2.1 = st.1 ++ files.flatMap (perFileNames bp) ∧
      st2.2 = sevFold st.2 (files.flatMap (perFileSevs bp)) := by
  intro files
  induction files with
  | nil =>
    intro st st2 h
    cases h
    simp [sevFold]
  | cons f fs ih =>
    intro st st2 h
    unfold collapseFilesAux at h
    cases hf : collapseFile bp st f with
    | error e => rw [hf] at h; cases h
    | ok st1 =>
      rw [hf] at h
      obtain ⟨h1, h2⟩ := ih st1 st2 h
      match f with
      | .bad n => exact absurd hf (by simp [collapseFile, parseOutcome])
      | .ok n b =>
        have hfb : collapseSpecsAux bp n b (nonRawSpecs b) st = .ok st1 := by
          simpa [collapseFile, parseOutcome, fileName] using hf
        obtain ⟨g1, g2⟩ := collapseSpecsAux_ok bp n b (nonRawSpecs b) st st1 hfb
        constructor
        · rw [h1, g1, List.flatMap_cons,
            show perFileNames bp (.ok n b) =
              List.replicate (contribution bp b) n from rfl,
            contribution, List.append_assoc]
        · rw [h2, g2, List.flatMap_cons,
            show perFileSevs bp (.ok n b) =
              List.replicate (contribution bp b) (severityOf b) from rfl,
            contribution, sevFold, sevFold, sevFold, List.foldl_append]

theorem find_collapsable_templates_ok (files : List YamlFile)
    (bp : List String) (ct : List String) (sd : List (Option String × Nat))
    (h : find_collapsable_templates files bp = .ok (ct, sd)) :
    ct = files.flatMap (perFileNames bp) ∧
    sd = sevFold [] (files.flatMap (perFileSevs bp)) := by
  have hh := collapseFilesAux_ok bp files ([], []) (ct, sd) h
  simpa using hh

theorem keys_bump (d : List (String × Nat)) (p : String) :
    (bump d p).map Prod.fst = firstSeenStep (d.map Prod.fst) p := by
  induction d with
  | nil => simp [bump, firstSeenStep]
  | cons q qs ih =>
    by_cases h : q.1 = p
    · subst h
      simp [bump, firstSeenStep]
    · by_cases h2 : p ∈ qs.map Prod.fst
      · simp [bump, h, firstSeenStep, h2, ih, Ne.symm h]
      · simp [bump, h, firstSeenStep, h2, ih, Ne.symm h]

theorem keys_foldl_bump (l : List String) :
    ∀ d : List (String × Nat),
      (l.foldl bump d).map Prod.fst = firstSeenAux (d.map Prod.fst) l := by
  induction l with
  | nil => intro d; rfl
  | cons x xs ih =>
    intro d
    have : firstSeenAux (d.map Prod.fst) (x :: xs) =
        firstSeenAux (firstSeenStep (d.map Prod.fst) x) xs := rfl
    rw [this, ← keys_bump]
    exact ih (bump d x)

theorem countOf_nil (p : String) : countOf [] p = 0 := rfl

theorem countOf_cons (q : String × Nat) (qs : List (String × Nat))
    (p : String) : countOf (q :: qs) p = if q.1 = p then q.2 else countOf qs p := by
  by_cases h : q.1 = p
  · unfold countOf
    rw [List.find?_cons_of_pos _ (by simpa using h)]
    simp [h]
  · unfold countOf
    rw [List.find?_cons_of_neg _ (by simpa using h)]
    simp [h]

theorem countOf_bump (d : List (String × Nat)) (x p : String) :
    countOf (bump d x) p = countOf d p + if x = p then 1 else 0 := by
  induction d with
  | nil =>
    rw [show bump [] x = [(x, 1)] from rfl, countOf_cons]
    by_cases h : x = p <;> simp [h, countOf_nil]
  | cons q qs ih =>
    by_cases hq : q.1 = x
    · rw [show bump (q :: qs) x = (q.1, q.2 + 1) :: qs from by simp [bump, hq],
        countOf_cons, countOf_cons]
      by_cases hp : q.1 = p
      · have hxp : x = p := by rw [← hq, hp]
        simp [hp, hxp]
      · have hxp : ¬ x = p := fun e => hp (hq.trans e)
        simp [hp, hxp]
    · rw [show bump (q :: qs) x = q :: bump qs x from by simp [bump, hq],
        countOf_cons, countOf_cons]
      by_cases hp : q.1 = p
      · have hxp : ¬ x = p := fun e => hq (by rw [e, hp])
        simp [hp, hxp]
      · simp [hp, ih]

theorem countOf_foldl_bump (l : List String) :
    ∀ d p, countOf (l.foldl bump d) p = countOf d p + l.count p := by
  induction l with
  | nil => intro d p; simp
  | cons x xs ih =>
    intro d p
    have step : List.foldl bump d (x :: xs) = xs.foldl bump (bump d x) := rfl
    rw [step, ih (bump d x) p, countOf_bump]
    have hc : (x :: xs).count p = xs.count p + if x == p then 1 else 0 :=
      List.count_cons p x xs
    rw [hc]
    by_cases h : x = p
    · simp [h]
      omega
    · simp [h, beq_eq_false_iff_ne.mpr h]

theorem iterPaths_ok (ol : List (Option (List String))) :
    ∀ pls, iterPaths ol = .ok pls → pls = ol.map (fun o => o.getD []) := by
  induction ol with
  | nil => intro pls h; cases h; rfl
  | cons o rest ih =>
    intro pls h
    match o with
    | none => exact absurd h (by simp [iterPaths])
    | some ps =>
      revert h
      unfold iterPaths
      cases hrec : iterPaths rest with
      | error e => intro h; cases h
      | ok tl =>
        intro h
        cases h
        simp [ih tl hrec]

theorem fileBump_ok (acc : List (String × Nat)) (f : YamlFile)
    (acc2 : List (String × Nat)) (h : fileBump acc f = .ok acc2) :
    acc2 = (specPathsOf f).foldl bump acc := by
  match f with
  | .bad n => exact absurd h (by simp [fileBump, parseOutcome])
  | .ok n b =>
    unfold fileBump parseOutcome at h
    dsimp only at h
    cases hiter : iterPaths ((nonRawSpecs b).map (fun r => r.path)) with
    | error e => rw [hiter] at h; cases h
    | ok pls =>
      rw [hiter] at h
      cases h
      rw [iterPaths_ok _ pls hiter]
      rw [specPathsOf, List.flatMap_def, List.foldl_flatten, List.map_map]
      rfl

theorem pathFrequencyAux_ok (files : List YamlFile) :
    ∀ acc freq, pathFrequencyAux files acc = .ok freq →
      freq = (corpusPathList files).foldl bump acc := by
  induction files with
  | nil => intro acc freq h; cases h; rfl
  | cons f fs ih =>
    intro acc freq h
    revert h
    unfold pathFrequencyAux
    cases hf : fileBump acc f with
    | error e => intro h; cases h
    | ok acc2 =>
      intro h
      have hrest := ih acc2 freq h
      rw [hrest, fileBump_ok acc f acc2 hf]
      rw [show corpusPathList (f :: fs) = specPathsOf f ++ corpusPathList fs from
        List.flatMap_cons f fs specPathsOf, List.foldl_append]

theorem pathFrequency_ok (files : List YamlFile)
    (freq : List (String × Nat)) (h : pathFrequency files = .ok freq) :
    freq = (corpusPathList files).foldl bump [] :=
  pathFrequencyAux_ok files [] freq h

theorem keys_pathFrequency (files : List YamlFile)
    (freq : List (String × Nat)) (h : pathFrequency files = .ok freq) :
    freq.map Prod.fst = distinctPaths files := by
  rw [pathFrequency_ok files freq h]
  exact keys_foldl_bump (corpusPathList files) []

theorem countOf_pathFrequency (files : List YamlFile)
    (freq : List (String × Nat)) (h : pathFrequency files = .ok freq)
    (p : String) : countOf freq p = (corpusPathList files).count p := by
  rw [pathFrequency_ok files freq h, countOf_foldl_bump, countOf_nil]
  omega

theorem mem_firstSeenStep (acc : List String) (x y : String) :
    y ∈ firstSeenStep acc x ↔ y ∈ acc ∨ y = x := by
  by_cases h : x ∈ acc
  · simp only [firstSeenStep, if_pos h]
    exact ⟨Or.inl, fun hy => hy.elim id (fun e => e ▸ h)⟩
  · simp [firstSeenStep, if_neg h]

theorem nodup_firstSeenStep (acc : List String) (x : String)
    (h : acc.Nodup) : (firstSeenStep acc x).Nodup := by
  by_cases hx : x ∈ acc
  · simpa [firstSeenStep, if_pos hx] using h
  · simp [firstSeenStep, if_neg hx, List.nodup_append, h, hx]

theorem mem_firstSeenAux (l : List String) :
    ∀ acc y, y ∈ firstSeenAux acc l ↔ y ∈ acc ∨ y ∈ l := by
  induction l with
  | nil => intro acc y; simp [firstSeenAux]
  | cons x xs ih =>
    intro acc y
    have step : firstSeenAux acc (x :: xs) =
        firstSeenAux (firstSeenStep acc x) xs := rfl
    rw [step, ih (firstSeenStep acc x) y, mem_firstSeenStep]
    simp [or_assoc, or_comm, or_left_comm]

theorem nodup_firstSeenAux (l : List String) :
    ∀ acc, acc.Nodup → (firstSeenAux acc l).Nodup := by
  induction l with
  | nil => intro acc h; simpa [firstSeenAux] using h
  | cons x xs ih =>
    intro acc h
    exact ih (firstSeenStep acc x) (nodup_firstSeenStep acc x h)

theorem nodup_firstSeen (l : List String) : (firstSeen l).Nodup :=
  nodup_firstSeenAux l [] List.nodup_nil

theorem mem_firstSeen (l : List String) (y : String) :
    y ∈ firstSeen l ↔ y ∈ l := by
  simpa [firstSeen] using mem_firstSeenAux l [] y

theorem filter_orderedInsert (c : Nat) (x : String × Nat)
    (l : List (String × Nat)) :
    (List.orderedInsert countDescOrder x l).filter (fun q => q.2 == c) =
      if x.2 == c then x :: l.filter (fun q => q.2 == c)
      else l.filter (fun q => q.2 == c) := by
  induction l with
  | nil =>
    cases hx : x.2 == c <;> simp [List.orderedInsert, List.filter_cons, hx]
  | cons y ys ih =>
    by_cases hr : countDescOrder x y
    · rw [show List.orderedInsert countDescOrder x (y :: ys) = x :: y :: ys from by
        simp [List.orderedInsert, hr]]
      cases hx : x.2 == c <;> simp [List.filter_cons, hx]
    · rw [show List.orderedInsert countDescOrder x (y :: ys) =
          y :: List.orderedInsert countDescOrder x ys from by
        simp [List.orderedInsert, hr]]
      cases hx : x.2 == c
      · rw [List.filter_cons, List.filter_cons]
        cases hy : y.2 == c <;> simp [hy, ih, hx]
      · have hxc : x.2 = c := by simpa using hx
        have hlt : x.2 < y.2 := Nat.not_le.mp (by simpa [countDescOrder] using hr)
        have hyc : (y.2 == c) = false := beq_eq_false_iff_ne.mpr (by omega)
        rw [List.filter_cons, List.filter_cons, hyc]
        simp [ih, hx]

theorem filter_sortDesc (c : Nat) (l : List (String × Nat)) :
    (sortDesc l).filter (fun q => q.2 == c) = l.filter (fun q => q.2 == c) := by
  induction l with
  | nil => rfl
  | cons x xs ih =>
    have hstep : sortDesc (x :: xs) =
        List.orderedInsert countDescOrder x (sortDesc xs) := rfl
    rw [hstep, filter_orderedInsert]
    cases hx : x.2 == c <;> simp [List.filter_cons, hx, ih]

theorem sorted_sortDesc (l : List (String × Nat)) :
    List.Sorted countDescOrder (sortDesc l) :=
  List.sorted_insertionSort countDescOrder l

theorem find_budget_paths_ok_elim (files : List YamlFile) (budget : Nat)
    (sel : List String) (h : find_budget_paths files budget = .ok sel) :
    ∃ freq, pathFrequency files = .ok freq ∧
      sel = ((sortDesc freq).take budget).map Prod.fst := by
  unfold find_budget_paths at h
  cases hp : pathFrequency files with
  | error e => rw [hp] at h; cases h
  | ok freq => rw [hp] at h; cases h; exact ⟨freq, rfl, rfl⟩

theorem sumValues_nil : sumValues [] = 0 := rfl

theorem sumValues_bumpSev (d : List (Option String × Nat)) (k : Option String) :
    sumValues (bumpSev d k) = sumValues d + 1 := by
  induction d with
  | nil => rfl
  | cons q qs ih =>
    by_cases h : q.1 = k
    · simp [bumpSev, h, sumValues]
      omega
    · simp [bumpSev, h, sumValues] at ih ⊢
      omega

theorem sumValues_sevFold (l : List (Option String)) :
    ∀ d, sumValues (sevFold d l) = sumValues d + l.length := by
  induction l with
  | nil => intro d; simp [sevFold]
  | cons x xs ih =>
    intro d
    have hstep : sevFold d (x :: xs) = sevFold (bumpSev d x) xs := rfl
    rw [hstep, ih, sumValues_bumpSev, List.length_cons]
    omega

theorem keys_bumpSev (d : List (Option String × Nat)) (k : Option String) :
    (bumpSev d k).map Prod.fst =
      if k ∈ d.map Prod.fst then d.map Prod.fst else d.map Prod.fst ++ [k] := by
  induction d with
  | nil => simp [bumpSev]
  | cons q qs ih =>
    by_cases h : q.1 = k
    · subst h
      simp [bumpSev]
    · by_cases h2 : k ∈ qs.map Prod.fst
      · simp [bumpSev, h, h2, ih, Ne.symm h]
      · simp [bumpSev, h, h2, ih, Ne.symm h]

theorem mem_keys_bumpSev (d : List (Option String × Nat))
    (k m : Option String) :
    m ∈ (bumpSev d k).map Prod.fst ↔ m ∈ d.map Prod.fst ∨ m = k := by
  rw [keys_bumpSev]
  by_cases h : k ∈ d.map Prod.fst
  · rw [if_pos h]
    exact ⟨Or.inl, fun hm => hm.elim id (fun e => e ▸ h)⟩
  · rw [if_neg h]
    simp

theorem mem_keys_sevFold (l : List (Option String)) :
    ∀ (d : List (Option String × Nat)) (m : Option String),
      m ∈ (sevFold d l).map Prod.fst ↔ m ∈ d.map Prod.fst ∨ m ∈ l := by
  induction l with
  | nil => intro d m; simp [sevFold]
  | cons x xs ih =>
    intro d m
    have hstep : sevFold d (x :: xs) = sevFold (bumpSev d x) xs := rfl
    rw [hstep, ih, mem_keys_bumpSev]
    simp [or_assoc, or_comm, or_left_comm]

theorem dictLookup_ok_iff (d : List (Option String × Nat))
    (k : Option String) :
    (∃ n, dictLookup d k = .ok n) ↔ k ∈ d.map Prod.fst := by
  unfold dictLookup
  cases h : d.find? (fun q => q.1 == k) with
  | none =>
    constructor
    · rintro ⟨n, hn⟩
      cases hn
    · intro hk
      obtain ⟨q, hq, he⟩ := List.mem_map.mp hk
      have hnone := List.find?_eq_none.mp h q hq
      simp [he] at hnone
  | some q =>
    constructor
    · intro _
      have hq1 := @List.find?_some _ (fun p : Option String × Nat => p.1 == k) q d h
      have hqm : q ∈ d := List.mem_of_find?_eq_some h
      exact List.mem_map.mpr ⟨q, hqm, by simpa using hq1⟩
    · intro _
      exact ⟨q.2, rfl⟩

theorem setupSeverityReport_ok_iff (d : List (Option String × Nat)) :
    (∃ r, setupSeverityReport d = .ok r) ↔
      ∀ s ∈ sixSeverities, some s ∈ d.map Prod.fst := by
  constructor
  · rintro ⟨r, hr⟩
    unfold setupSeverityReport at hr
    cases h1 : dictLookup d (some "critical") with
    | error e => rw [h1] at hr; cases hr
    | ok n1 =>
    rw [h1] at hr
    cases h2 : dictLookup d (some "high") with
    | error e => rw [h2] at hr; cases hr
    | ok n2 =>
    rw [h2] at hr
    cases h3 : dictLookup d (some "medium") with
    | error e => rw [h3] at hr; cases hr
    | ok n3 =>
    rw [h3] at hr
    cases h4 : dictLookup d (some "low") with
    | error e => rw [h4] at hr; cases hr
    | ok n4 =>
    rw [h4] at hr
    cases h5 : dictLookup d (some "info") with
    | error e => rw [h5] at hr; cases hr
    | ok n5 =>
    rw [h5] at hr
    cases h6 : dictLookup d (some "unknown") with
    | error e => rw [h6] at hr; cases hr
    | ok n6 =>
    intro s hs
    simp only [sixSeverities, List.mem_cons, List.not_mem_nil, or_false] at hs
    rcases hs with rfl | rfl | rfl | rfl | rfl | rfl
    · exact (dictLookup_ok_iff d _).mp ⟨n1, h1⟩
    · exact (dictLookup_ok_iff d _).mp ⟨n2, h2⟩
    · exact (dictLookup_ok_iff d _).mp ⟨n3, h3⟩
    · exact (dictLookup_ok_iff d _).mp ⟨n4, h4⟩
    · exact (dictLookup_ok_iff d _).mp ⟨n5, h5⟩
    · exact (dictLookup_ok_iff d _).mp ⟨n6, h6⟩
  · intro hall
    obtain ⟨n1, hc1⟩ := (dictLookup_ok_iff d (some "critical")).mpr
      (hall _ (by simp [sixSeverities]))
    obtain ⟨n2, hc2⟩ := (dictLookup_ok_iff d (some "high")).mpr
      (hall _ (by simp [sixSeverities]))
    obtain ⟨n3, hc3⟩ := (dictLookup_ok_iff d (some "medium")).mpr
      (hall _ (by simp [sixSeverities]))
    obtain ⟨n4, hc4⟩ := (dictLookup_ok_iff d (some "low")).mpr
      (hall _ (by simp [sixSeverities]))
    obtain ⟨n5, hc5⟩ := (dictLookup_ok_iff d (some "info")).mpr
      (hall _ (by simp [sixSeverities]))
    obtain ⟨n6, hc6⟩ := (dictLookup_ok_iff d (some "unknown")).mpr
      (hall _ (by simp [sixSeverities]))
    refine ⟨[n1, n2, n3, n4, n5, n6], ?_⟩
    unfold setupSeverityReport
    rw [hc1, hc2, hc3, hc4, hc5, hc6]

/-- Claim C2 (budget ceiling): whenever `find_budget_paths` returns a
selection, the selection holds at most `budget` paths, and exactly
`min budget d` paths where `d` is the number of distinct paths of the
corpus; moreover whether the computation raises does not depend on the
budget at all, so a corpus with fewer distinct paths than the budget
yields a selection (of all distinct paths) rather than an error. -/
theorem claim2 (files : List YamlFile) (budget : Nat) (sel : List String)
    (h : find_budget_paths files budget = .ok sel) :
    sel.length ≤ budget ∧
    sel.length = min budget (distinctPathCount files) ∧
    (distinctPaths files).Nodup ∧
    (∀ p, p ∈ distinctPaths files ↔ p ∈ corpusPathList files) ∧
    (∀ budget2, ∃ sel2, find_budget_paths files budget2 = .ok sel2) := by
  obtain ⟨freq, hfreq, hsel⟩ := find_budget_paths_ok_elim files budget sel h
  have hkeys : freq.map Prod.fst = distinctPaths files :=
    keys_pathFrequency files freq hfreq
  have hlen : freq.length = distinctPathCount files := by
    have := congrArg List.length hkeys
    simpa using this
  have hmin : sel.length = min budget (distinctPathCount files) := by
    rw [hsel, List.length_map, List.length_take]
    unfold sortDesc
    rw [List.length_insertionSort, hlen]
  refine ⟨?_, hmin, nodup_firstSeen _, fun p => mem_firstSeen _ p, ?_⟩
  · rw [hmin]; exact Nat.min_le_left _ _
  · intro budget2
    refine ⟨((sortDesc freq).take budget2).map Prod.fst, ?_⟩
    unfold find_budget_paths
    rw [hfreq]

/-- Closed instance of claim C2 on a concrete corpus with two distinct
paths and budget 1. -/
theorem claim2_witness :
    (["/a"] : List String).length ≤ 1 ∧
    (["/a"] : List String).length = min 1 (distinctPathCount mixedCorpus) :=
  ⟨(claim2 mixedCorpus 1 ["/a"] rfl).1, (claim2 mixedCorpus 1 ["/a"] rfl).2.1⟩

/-- Claim C3 (budget-selection determinism): the selector is a pure
function (two runs coincide); its output is the first `budget` keys of the
stable descending sort of the frequency dictionary; that sort is ordered
by descending count, and within one count value it preserves the
dictionary order unchanged (stability); the dictionary keys are exactly
the corpus paths in first-encounter order, and the counter of each key is its
occurrence count in the corpus. -/
theorem claim3 (files : List YamlFile) (budget : Nat)
    (freq : List (String × Nat)) (h : pathFrequency files = .ok freq) :
    find_budget_paths files budget = find_budget_paths files budget ∧
    find_budget_paths files budget =
      .ok (((sortDesc freq).take budget).map Prod.fst) ∧
    List.Sorted countDescOrder (sortDesc freq) ∧
    (∀ c, (sortDesc freq).filter (fun q => q.2 == c) =
      freq.filter (fun q => q.2 == c)) ∧
    freq.map Prod.fst = distinctPaths files ∧
    (∀ p, countOf freq p = (corpusPathList files).count p) := by
  refine ⟨rfl, ?_, sorted_sortDesc freq, fun c => filter_sortDesc c freq,
    keys_pathFrequency files freq h, fun p => countOf_pathFrequency files freq h p⟩
  unfold find_budget_paths
  rw [h]

/-- Closed instance of claim C3 on a concrete corpus: the doubly-referenced
path `/b` is selected first, the stable sort keeps the count-1 class in
first-encounter order, and counters match occurrence counts. -/
theorem claim3_witness :
    find_budget_paths freqCorpus 1 = .ok ["/b"] ∧
    List.Sorted countDescOrder (sortDesc [("/a", 1), ("/b", 2)]) ∧
    (sortDesc [("/a", 1), ("/b", 2)]).filter (fun q => q.2 == 1) =
      [("/a", 1), ("/b", 2)].filter (fun q => q.2 == 1) ∧
    [("/a", 1), ("/b", 2)].map Prod.fst = distinctPaths freqCorpus ∧
    countOf [("/a", 1), ("/b", 2)] "/b" = (corpusPathList freqCorpus).count "/b" := by
  have h := claim3 freqCorpus 1 [("/a", 1), ("/b", 2)] rfl
  exact ⟨h.2.1, h.2.2.1, h.2.2.2.1 1, h.2.2.2.2.1, h.2.2.2.2.2 "/b"⟩

/-- Claim C1 fails on the code: on a corpus with budget selection `/a`,
the template `t` — which contains a raw request and a non-raw GET request
on `/b` outside the budget selection — is nevertheless placed into the
collapsed template set, because the filter only requires SOME non-raw
request whose paths are inside the selection and skips raw requests
entirely. -/
theorem claim1_counterexample :
    nucleiBudgetRun mixedCorpus 1 =
      .ok (["/a"], (["t"], [(some "high", 1)])) ∧
    mixedBody.requests.any (fun r => r.raw) = true ∧
    "/b" ∈ (nonRawSpecs mixedBody).flatMap (fun r => r.path.getD []) ∧
    "/b" ∉ (["/a"] : List String) := by
  refine ⟨rfl, rfl, by decide, by decide⟩

/-- Claim C1 as amended: every template name in the collapsed list comes
from a file of the corpus that has AT LEAST ONE non-raw request whose
declared paths all lie in the budget selection (not necessarily all of
its requests), and whose every non-raw request passes the feature checks
(method exactly GET, no truthy headers, max-redirects, redirects or
cookie-reuse); raw requests are skipped by all of these checks, so a
template containing raw requests can still appear. -/
theorem claim1_amended (files : List YamlFile) (bp : List String)
    (ct : List String) (sd : List (Option String × Nat))
    (h : find_collapsable_templates files bp = .ok (ct, sd))
    (name : String) (hmem : name ∈ ct) :
    ∃ b, YamlFile.ok name b ∈ files ∧
      (∃ r ∈ nonRawSpecs b, qualifies bp r = true) ∧
      templateValid b = true := by
  obtain ⟨hct, _⟩ := find_collapsable_templates_ok files bp ct sd h
  rw [hct] at hmem
  obtain ⟨f, hf, hnm⟩ := List.mem_flatMap.mp hmem
  match f with
  | .bad n => simp [perFileNames] at hnm
  | .ok n b =>
    rw [show perFileNames bp (.ok n b) =
      List.replicate (contribution bp b) n from rfl] at hnm
    obtain ⟨hk, hname⟩ := List.mem_replicate.mp hnm
    subst hname
    have hval : templateValid b = true := by
      by_contra hv
      exact hk (by simp [contribution, specContrib, hv])
    have hcontrib : contribution bp b = (nonRawSpecs b).countP (qualifies bp) := by
      simp [contribution, specContrib, hval]
    have hpos : 0 < (nonRawSpecs b).countP (qualifies bp) := by
      rw [← hcontrib]
      exact Nat.pos_of_ne_zero hk
    obtain ⟨r, hr, hq⟩ := List.countP_pos_iff.mp hpos
    exact ⟨b, hf, ⟨r, hr, hq⟩, hval⟩

/-- Closed instance of the amended claim C1 at the concrete corpus of the
counterexample. -/
theorem claim1_witness :
    ∃ b, YamlFile.ok "t" b ∈ mixedCorpus ∧
      (∃ r ∈ nonRawSpecs b, qualifies ["/a"] r = true) ∧
      templateValid b = true :=
  claim1_amended mixedCorpus ["/a"] ["t"] [(some "high", 1)] rfl "t" (by decide)

/-- Claim C4: the spec requires a file whose content fails to parse to be
skipped, never fatal; the code instead aborts the whole budget
computation, because the `except yaml.YAMLError` handler calls the
undefined `self.debug` (and `parse_yaml` returns `None`, on which
`p.get` raises).  Evaluating the embedded pipeline on a corpus holding
one good file and one unparseable file yields the abort. -/
theorem claim4_bug :
    nucleiBudgetRun [YamlFile.ok "good" goodBody, YamlFile.bad "broken"] 1 =
      .error parseFailure := rfl

/-- Claim C5 fails on the code for a non-raw request whose `path` key is
ABSENT (as opposed to an empty list): `find_budget_paths` iterates
`None` and raises a TypeError, aborting the computation instead of
treating the request as vacuously satisfying path containment. -/
theorem claim5_counterexample :
    find_budget_paths pathlessCorpus 1 = .error noneIterError ∧
    pathlessSpec.raw = false ∧ pathlessSpec.path = none :=
  ⟨rfl, rfl, rfl⟩

/-- Claim C5 as amended: a non-raw request with an EMPTY declared path
list is processed without error and vacuously satisfies path
containment, so a feature-valid template containing such a request is
collapsed (regardless of raw requests elsewhere in the template); only a
request with an absent path list aborts the computation. -/
theorem claim5_amended (files : List YamlFile) (budget : Nat)
    (bp : List String) (ct : List String) (sd : List (Option String × Nat))
    (name : String) (b : TemplateBody)
    (_hbudget : find_budget_paths files budget = .ok bp)
    (h2 : find_collapsable_templates files bp = .ok (ct, sd))
    (hf : YamlFile.ok name b ∈ files)
    (hval : templateValid b = true)
    (hr : ∃ r ∈ nonRawSpecs b, r.path = some []) :
    name ∈ ct := by
  obtain ⟨hct, _⟩ := find_collapsable_templates_ok files bp ct sd h2
  rw [hct]
  apply List.mem_flatMap.mpr
  refine ⟨.ok name b, hf, ?_⟩
  rw [show perFileNames bp (.ok name b) =
    List.replicate (contribution bp b) name from rfl]
  apply List.mem_replicate.mpr
  refine ⟨?_, rfl⟩
  obtain ⟨r, hrm, hrp⟩ := hr
  have hq : qualifies bp r = true := by simp [qualifies, hrp, pathsSubset]
  have hpos : 0 < (nonRawSpecs b).countP (qualifies bp) :=
    List.countP_pos_iff.mpr ⟨r, hrm, hq⟩
  have hcontrib : contribution bp b = (nonRawSpecs b).countP (qualifies bp) := by
    simp [contribution, specContrib, hval]
  rw [hcontrib]
  omega

/-- Closed instance of the amended claim C5: the template `e`, whose only
request declares an empty path list, is collapsed without error. -/
theorem claim5_witness : "e" ∈ (["e"] : List String) :=
  claim5_amended emptyPathCorpus 1 [] ["e"] [(some "info", 1)] "e"
    emptyPathBody rfl rfl (by decide) (by decide)
    ⟨simpleGet [], by decide, rfl⟩

/-- Claim C7 fails on the code: the collapsed template list may hold the
same template id several times (once per qualifying request), and the
severity tally counts every append, so the sum of the severity statistics
equals the LENGTH of the list, which can exceed the cardinality of the
set of distinct identifiers.  Template `t` has two qualifying requests:
the sum is 2 but only one distinct identifier was collapsed. -/
theorem claim7_counterexample :
    nucleiBudgetRun twinCorpus 1 =
      .ok (["/a"], (["t", "t"], [(some "low", 2)])) ∧
    sumValues [(some "low", 2)] = 2 ∧
    firstSeen ["t", "t"] = ["t"] ∧
    sumValues [(some "low", 2)] ≠ (firstSeen ["t", "t"]).length := by
  refine ⟨rfl, rfl, by decide, by decide⟩

/-- Claim C7 as amended: the sum of the severity statistics equals the
number of entries of the collapsed template LIST counted with
multiplicity (the list may repeat an identifier). -/
theorem claim7_amended (files : List YamlFile) (bp : List String)
    (ct : List String) (sd : List (Option String × Nat))
    (h : find_collapsable_templates files bp = .ok (ct, sd)) :
    sumValues sd = ct.length := by
  obtain ⟨hct, hsd⟩ := find_collapsable_templates_ok files bp ct sd h
  rw [hct, hsd, sumValues_sevFold, sumValues_nil, List.length_flatMap,
    List.length_flatMap]
  have hcongr : files.map (List.length ∘ perFileSevs bp) =
      files.map (List.length ∘ perFileNames bp) := by
    apply List.map_congr_left
    intro f _
    match f with
    | .bad n => rfl
    | .ok n b => simp [perFileSevs, perFileNames]
  rw [hcongr]
  omega

/-- Closed instance of the amended claim C7 at the corpus of the
counterexample: the sum equals the length of the (duplicated) list. -/
theorem claim7_witness :
    sumValues [(some "low", 2)] = (["t", "t"] : List String).length :=
  claim7_amended twinCorpus ["/a"] ["t", "t"] [(some "low", 2)] rfl

/-- Claim C10: the severity statistics returned by
`find_collapsable_templates` only hold keys for the raw severity values
actually tallied from collapsed templates (second conjunct), and the
budget-mode `setup` report — which subscripts the dictionary with the six
literal severity names — completes without a KeyError exactly when every
one of the six levels occurs among those keys (first conjunct). -/
theorem claim10 (files : List YamlFile) (bp : List String)
    (ct : List String) (sd : List (Option String × Nat))
    (h : find_collapsable_templates files bp = .ok (ct, sd)) :
    ((∃ r, setupSeverityReport sd = .ok r) ↔
      ∀ s ∈ sixSeverities, some s ∈ sd.map Prod.fst) ∧
    (∀ k, k ∈ sd.map Prod.fst ↔ ∃ f ∈ files, k ∈ perFileSevs bp f) := by
  obtain ⟨_, hsd⟩ := find_collapsable_templates_ok files bp ct sd h
  refine ⟨setupSeverityReport_ok_iff sd, ?_⟩
  intro k
  rw [hsd, mem_keys_sevFold]
  simp [List.mem_flatMap]

/-- Closed instance of claim C10: on a corpus covering all six severity
levels the budget-mode setup report does not raise. -/
theorem claim10_witness : ∃ r, setupSeverityReport sixStats = .ok r :=
  (claim10 sixCorpus ["/a"] ["c", "h", "m", "l", "i", "u"] sixStats
    rfl).1.mpr (by decide)

/-- Claim C8: a malformed line yields nothing; a parsed record yields a
result exactly when template id, name (matcher-level name, or display
name when the former is missing), severity and host are all non-empty;
what is yielded is those four fields with the severity upper-cased; and a
malformed line anywhere in the stream only disappears, leaving the
results of all other lines untouched. -/
theorem claim8 (j : NucleiJson) (l1 l2 : List (Option NucleiJson)) :
    processLine none = none ∧
    ((processLine (some j)).isSome ↔
      (jsonTemplate j ≠ "" ∧ jsonName j ≠ "" ∧ jsonSeverity j ≠ "" ∧
        jsonHost j ≠ "")) ∧
    (∀ sev tmpl host nm,
      processLine (some j) = some (sev, tmpl, host, nm) →
      sev = strUpper (infoGet j (fun i => i.severity)) ∧
        tmpl = jsonTemplate j ∧ host = jsonHost j ∧ nm = jsonName j) ∧
    executeNucleiResults (l1 ++ none :: l2) = executeNucleiResults (l1 ++ l2) := by
  refine ⟨rfl, ?_, ?_, ?_⟩
  · unfold processLine
    by_cases h : jsonTemplate j ≠ "" ∧ jsonName j ≠ "" ∧ jsonSeverity j ≠ "" ∧
        jsonHost j ≠ ""
    · simp [h]
    · simp [h]
  · intro sev tmpl host nm h
    unfold processLine at h
    dsimp only at h
    by_cases hc : jsonTemplate j ≠ "" ∧ jsonName j ≠ "" ∧ jsonSeverity j ≠ "" ∧
        jsonHost j ≠ ""
    · rw [if_pos hc] at h
      cases h
      exact ⟨rfl, rfl, rfl, rfl⟩
    · rw [if_neg hc] at h
      cases h
  · unfold executeNucleiResults
    rw [List.filterMap_append, List.filterMap_append, List.filterMap_cons]
    simp [processLine]

/-- Closed instance of claim C8: the populated record is yielded (with
upper-cased severity) and a malformed line between two copies of it is
dropped without affecting them. -/
theorem claim8_witness :
    (processLine (some fullJson)).isSome ∧
    executeNucleiResults [some fullJson, none, some fullJson] =
      executeNucleiResults [some fullJson, some fullJson] :=
  ⟨(claim8 fullJson [] []).2.1.mpr (by decide),
   (claim8 fullJson [some fullJson] [some fullJson]).2.2.2⟩

theorem find?_first {α : Type} (p : α → Bool) :
    ∀ (l : List α) (a : α), l.find? p = some a →
      ∃ pre suf, l = pre ++ a :: suf ∧ p a = true ∧ ∀ x ∈ pre, p x = false := by
  intro l
  induction l with
  | nil => intro a h; cases h
  | cons y ys ih =>
    intro a h
    by_cases hy : p y
    · rw [List.find?_cons_of_pos _ hy] at h
      cases h
      exact ⟨[], ys, rfl, hy, by simp⟩
    · rw [List.find?_cons_of_neg _ hy] at h
      obtain ⟨pre, suf, heq, hpa, hpre⟩ := ih a h
      refine ⟨y :: pre, suf, by rw [heq]; rfl, hpa, ?_⟩
      intro x hx
      rcases List.mem_cons.mp hx with rfl | hx2
      · simpa using hy
      · exact hpre x hx2

/-- Claim C9: when `correlate_event` returns an event, it is the first
event of the batch (in batch order) containing the result host, all
earlier events not containing it; and when no event of the batch contains
the host, processing that result emits no finding and logs exactly one
correlation-failure warning. -/
theorem claim9 (events : List InputEvent) (host sev tmpl nm : String)
    (e : InputEvent) :
    (correlate_event events host = some e →
      ∃ pre suf, events = pre ++ e :: suf ∧ eventContains e host = true ∧
        ∀ x ∈ pre, eventContains x host = false) ∧
    (correlate_event events host = none →
      handle_batch events [(sev, tmpl, host, nm)] = ([], 1)) := by
  constructor
  · intro h
    exact find?_first (fun x => eventContains x host) events e h
  · intro h
    unfold handle_batch
    simp only [List.foldl_cons, List.foldl_nil]
    rw [show correlate_event events (sev, tmpl, host, nm).2.2.1 =
      (none : Option InputEvent) from h]

/-- Closed instance of claim C9: the host `c.example.com`, contained in
neither event, yields no finding and one warning; the host
`a.example.com/path` correlates to the first event. -/
theorem claim9_witness :
    handle_batch exampleBatch [("INFO", "tech-detect", "c.example.com", "n")] =
      ([], 1) ∧
    correlate_event exampleBatch "a.example.com/path" = some
      { data := "https://a.example.com/path?q=1", host := "a.example.com" } :=
  ⟨(claim9 exampleBatch "c.example.com" "INFO" "tech-detect" "n"
      { data := "", host := "" }).2 (by decide),
   by decide⟩

/-- Claim C6 fails on the code: in budget mode the configured severity and
tag filters are NOT ignored — setup leaves them on the module and
`execute_nuclei` passes them to the process alongside the `-t`
template-list argument. -/
theorem claim6_counterexample :
    setupState budgetCfg "bfile" = some budgetSt ∧
    "-severity" ∈ execute_nuclei_command budgetSt ∧
    "low" ∈ execute_nuclei_command budgetSt ∧
    "-tags" ∈ execute_nuclei_command budgetSt ∧
    "foo" ∈ execute_nuclei_command budgetSt := by
  refine ⟨rfl, ?_, ?_, ?_, ?_⟩ <;> decide

/-- Claim C6 as amended: in budget mode the collapsed-template file is
supplied to the process via `-t` as the final pair of arguments, but the
configured tag and severity filters are not cleared: setup keeps them on
the module and, when non-empty, they are passed to the process as
`-severity` and `-tags`. -/
theorem claim6_amended (cfg : NucleiConfig) (budgetFile : String)
    (st : ModuleState) (h : setupState cfg budgetFile = some st)
    (hm : cfg.mode = "budget") :
    st.severity = cfg.severity ∧ st.tags = cfg.tags ∧
    st.config.mode = "budget" ∧
    (∃ pre, execute_nuclei_command st = pre ++ ["-t", budgetFile]) ∧
    (cfg.severity ≠ "" → "-severity" ∈ execute_nuclei_command st) ∧
    (cfg.tags ≠ "" → "-tags" ∈ execute_nuclei_command st) := by
  have hvalid : cfg.mode ∈ validModes := by rw [hm]; decide
  have hst : st =
      { templates := cfg.templates, tags := cfg.tags, etags := cfg.etags,
        severity := cfg.severity, iserver := cfg.interactshServer,
        itoken := cfg.interactshToken, budgetTemplatesFile := budgetFile,
        config := cfg } := by
    unfold setupState at h
    rw [if_pos hvalid] at h
    simp only [hm] at h
    cases h
    rfl
  subst hst
  refine ⟨rfl, rfl, hm, ?_, ?_, ?_⟩
  · refine ⟨["nuclei", "-silent", "-json", "-update-directory",
      "nuclei-templates", "-rate-limit", toString cfg.ratelimit,
      "-concurrency", toString cfg.concurrency, "-duc"]
      ++ optArgs "severity" cfg.severity ++ optArgs "templates" cfg.templates
      ++ optArgs "iserver" cfg.interactshServer
      ++ optArgs "itoken" cfg.interactshToken ++ optArgs "etags" cfg.etags
      ++ (if cfg.tags = "" then [] else ["-tags", cfg.tags])
      ++ (if cfg.interactshDisable then ["-no-interactsh"] else [])
      ++ (if cfg.mode = "technology" then ["-as"] else []), ?_⟩
    unfold execute_nuclei_command
    dsimp only
    rw [if_pos hm]
  · intro hsev
    unfold execute_nuclei_command optArgs
    dsimp only
    rw [if_neg hsev]
    simp
  · intro htags
    unfold execute_nuclei_command
    dsimp only
    rw [if_neg htags]
    simp

/-- Closed instance of the amended claim C6 at the counterexample
configuration. -/
theorem claim6_witness :
    budgetSt.severity = budgetCfg.severity ∧ budgetSt.tags = budgetCfg.tags ∧
    budgetSt.config.mode = "budget" ∧
    (∃ pre, execute_nuclei_command budgetSt = pre ++ ["-t", "bfile"]) ∧
    (budgetCfg.severity ≠ "" → "-severity" ∈ execute_nuclei_command budgetSt) ∧
    (budgetCfg.tags ≠ "" → "-tags" ∈ execute_nuclei_command budgetSt) :=
  claim6_amended budgetCfg "bfile" budgetSt rfl rfl

end Nuclei
